import Mathlib

/-!
Verification development for the `iatv` caption-stitching core
(`src/iatv/iatv.py`).  The stitching engine `_srt_gen_from_url` fetches
fixed-width caption windows from the archive, re-bases each window's
cue timings with a running offset accumulator, and re-serializes each
window; `Show.get_transcript` resolves the total duration, drives the
stitching call and caches the result on the handle; `_make_ts_from_srt`
flattens the stitched document into speaker-separated segments.

Modelling conventions:
* Cue timings are integers (the source holds pycaption's numeric
  microsecond timings; only exact addition is performed on them).
* SRT payloads are modelled at the parsed-cue level: a fetched window
  body is a `List Caption` (`[]` models an empty response body, the
  `if srt:` test of line 379).  The external pycaption round-trip
  (SRTReader / SRTWriter) is modelled by its observable effect: the
  writer re-numbers each emitted document's cues from 1
  (`List.enumFrom 1`) and otherwise preserves order, timings and text.
* The archive (`requests.get` + `raise_for_status`) is modelled as a
  function `remote : Int → Int → FetchResult` from the window bounds
  `t0, t1` to either a parsed body or a failure status.
-/

namespace Iatv

/-- One subtitle cue as held by the stitcher: start time, end time and
text lines.  (`end` is a Lean keyword, hence the field name `end_`.) -/
structure Caption where
  start : Int
  end_ : Int
  text : List String
deriving DecidableEq, Repr

/-- Result of one window fetch: `success body` models a 200 response
with parsed body `body` (`[]` for an empty body), `failure s` models a
non-success status `s`, on which `res.raise_for_status()` raises. -/
inductive FetchResult where
  | success (body : List Caption)
  | failure (status : Nat)
deriving DecidableEq, Repr

/-- A re-serialized window: each cue paired with the sequence index the
SRT writer prints for it. -/
abbrev Block := List (Nat × Caption)

/-- The reassembled document: the emitted blocks in window order. -/
abbrev Doc := List Block

/-- `caption.start += off; caption.end += off` (lines 390-391). -/
def shiftCaption (off : Int) (c : Caption) : Caption :=
  { c with start := c.start + off, end_ := c.end_ + off }

/-- `captions[-1].end`, with a default for the (guarded) empty case. -/
def lastEnd (cs : List Caption) (dflt : Int) : Int :=
  match cs.getLast? with
  | some c => c.end_
  | none => dflt

/-- End time of the last cue of an emitted block (0 if the block is
empty; only used on non-empty blocks). -/
def blockLastEnd (b : Block) : Int :=
  match b.getLast? with
  | some p => p.2.end_
  | none => 0

/-- Lines 379-397 of `_srt_gen_from_url`, for one window payload:
if the body is non-empty, parse it, apply the offset accumulator
(except in the `first` branch, which the loop makes unreachable because
`first` is cleared at line 360, during the first fetch), update the
accumulator to the end of the (mutated) last cue, and re-serialize
(the SRT writer renumbers the block's cues from 1).  Returns the new
accumulator and the emitted block (`[]` for the `yield ''` branch). -/
def stitchBlock (first : Bool) (last_end : Int) (captions : List Caption) :
    Int × Block :=
  if captions ≠ [] then
    if first then
      (lastEnd captions last_end, List.enumFrom 1 captions)
    else
      let shifted := captions.map (shiftCaption last_end)
      (lastEnd shifted last_end, List.enumFrom 1 shifted)
  else
    (last_end, [])

/-- The stitching pass of `_srt_gen_from_url` over a whole payload
sequence (each stitch call has `first = false`, see `stitchBlock`):
threads the offset accumulator through the windows and collects the
emitted blocks. -/
def stitchAll (last_end : Int) : List (List Caption) → Int × Doc
  | [] => (last_end, [])
  | w :: ws =>
    let (e1, b) := stitchBlock false last_end w
    let (e2, bs) := stitchAll e1 ws
    (e2, b :: bs)

/-- The `while has_next:` loop of `_srt_gen_from_url` (lines 353-400):
fetch window `[t0, t1]`; on a non-success status abort with that status
(`raise_for_status`); otherwise clear `first` (line 360), advance
`t0 = t1 + 1`, `t1 = t1 + dt`, recompute `has_next = t1 <= end_time`
(lines 375-377), stitch and emit the window (lines 379-400), and loop
while `has_next`.  Returns the list of windows actually fetched
together with either the emitted blocks or the failure status. -/
def srtLoop (remote : Int → Int → FetchResult) (end_time : Int)
    (t0 t1 : Int) (first : Bool) (last_end : Int) :
    List (Int × Int) × Except Nat Doc :=
  match remote t0 t1 with
  | .failure s => ([(t0, t1)], .error s)
  | .success captions =>
    let first1 := if first then false else first
    let t0n := t1 + 1
    let t1n := t1 + 60
    let (last_end1, block) := stitchBlock first1 last_end captions
    if _h : t1n ≤ end_time then
      match srtLoop remote end_time t0n t1n first1 last_end1 with
      | (tr, .ok bs) => ((t0, t1) :: tr, .ok (block :: bs))
      | (tr, .error s) => ((t0, t1) :: tr, .error s)
    else
      ([(t0, t1)], .ok [block])
termination_by (end_time - t1).toNat
decreasing_by simp_wf; omega

/-- `_srt_gen_from_url(base_url, end_time)` (lines 342-400): the loop
started with `dt = 60`, `t0 = 0`, `t1 = 60`, `first = True`,
`last_end = 0.0` (lines 344-352).  The source's default `end_time` is
3660; callers pass it explicitly here. -/
def _srt_gen_from_url (remote : Int → Int → FetchResult) (end_time : Int) :
    List (Int × Int) × Except Nat Doc :=
  srtLoop remote end_time 0 60 true 0

/-- The windows the loop attempts after a window ending at `t1`, all
fetches succeeding: it advances to `(t1 + 1, t1 + 60)` while that
window's end does not exceed `end_time`. -/
def nextWindows (end_time : Int) (t1 : Int) : List (Int × Int) :=
  if _h : t1 + 60 ≤ end_time then
    (t1 + 1, t1 + 60) :: nextWindows end_time (t1 + 60)
  else
    []
termination_by (end_time - t1).toNat
decreasing_by simp_wf; omega

/-- The full fetch trace of a run in which every fetch succeeds: the
window `(0, 60)` is always attempted first (the loop body runs before
`has_next` is ever tested), then `nextWindows`. -/
def expectedTrace (end_time : Int) : List (Int × Int) :=
  (0, 60) :: nextWindows end_time 60

/-! ## The `Show` handle and `get_transcript`

Text coming from the archive (titles, runtime strings) is modelled as
`List Char`.  Python exceptions that escape the modelled code are an
explicit `PyErr`. -/

/-- Python exceptions relevant to the modelled paths. -/
inductive PyErr where
  | typeError
  | valueError
  | indexError
deriving DecidableEq, Repr

/-- The `metadata` dictionary: its `'title'` and `'runtime'` entries
(lists of strings), the only keys the modelled code reads. -/
structure Metadata where
  title : List (List Char)
  runtime : List (List Char)
deriving DecidableEq, Repr

/-- `s.split(sep)` for a one-character separator, with Python's
semantics for a non-empty separator (leftmost splitting, empty pieces
kept).  `acc` holds the current piece, reversed. -/
def split1Aux (sep : Char) (acc : List Char) : List Char → List (List Char)
  | [] => [acc.reverse]
  | c :: rest =>
    if c = sep then acc.reverse :: split1Aux sep [] rest
    else split1Aux sep (c :: acc) rest

/-- `s.split(sep)` for a one-character separator. -/
def split1 (sep : Char) (s : List Char) : List (List Char) :=
  split1Aux sep [] s

/-- Python `int(s)` on a non-negative decimal numeral: `none` models
the `ValueError` on an empty or non-digit string. -/
def parseDigits (cs : List Char) : Option Nat :=
  if cs = [] then none
  else
    cs.foldl
      (fun acc c =>
        match acc with
        | some n => if c.isDigit then some (n * 10 + (c.toNat - 48)) else none
        | none => none)
      (some 0)

/-- Lines 225-226: `h, m, s = _rt.split(':')` followed by
`(3600 * int(h)) + (60 * int(m)) + int(s)`.  `none` models the
uncaught `ValueError` when the split does not have exactly three
numeric fields. -/
def parseHMS (rt : List Char) : Option Int :=
  match (split1 ':' rt).map parseDigits with
  | [some h, some m, some s] => some (3600 * (h : Int) + 60 * m + s)
  | _ => none

/-- Line 175: `Runtime(*[int(el) for el in _rt.split(':')])`.  `none`
models the uncaught error when a field is non-numeric (`ValueError`)
or the arity is not three (`TypeError` from the namedtuple). -/
def parseRuntimeTuple (rt : List Char) : Option (Int × Int × Int) :=
  match (split1 ':' rt).map parseDigits with
  | [some h, some m, some s] => some ((h : Int), (m : Int), (s : Int))
  | _ => none

/-- The `Show` handle (lines 166-194).  `metadata = none` models the
`except requests.HTTPError` path that warns and leaves the handle with
no metadata or title.  `srt`/`transcript` start as the falsy `''`,
modelled `none`; a computed document is `some`.  The string-valued
`srt_fname` and `transcript_download_url` fields carry no logic used
by the claims and are omitted. -/
structure Show where
  metadata : Option Metadata
  title : Option (List Char)
  identifier : List Char
  runtime : Option (Int × Int × Int)
  srt : Option Doc
  transcript : Option Doc
  last_start_time : Option Int
  last_end_time : Option Int
deriving DecidableEq, Repr

/-- `Show.__init__` (lines 166-194), with the metadata lookup's
outcome passed in (`none` models the `requests.HTTPError` it raises on
failure).  On success the constructor pops (removes) the last element
of `metadata['title']` and of `metadata['runtime']` from the stored
dictionary; a pop from an empty list raises `IndexError`, which
`__init__` does not catch. -/
def Show.init (md : Option Metadata) (identifier : List Char) :
    Except PyErr Show :=
  match md with
  | some m =>
    match m.title.getLast? with
    | none => .error .indexError
    | some t =>
      let m1 : Metadata := { m with title := m.title.dropLast }
      match m1.runtime.getLast? with
      | none => .error .indexError
      | some rt =>
        let m2 : Metadata := { m1 with runtime := m1.runtime.dropLast }
        match parseRuntimeTuple rt with
        | none => .error .valueError
        | some r =>
          .ok { metadata := some m2, title := some t,
                identifier := identifier, runtime := some r,
                srt := none, transcript := none,
                last_start_time := none, last_end_time := none }
  | none =>
    .ok { metadata := none, title := none, identifier := identifier,
          runtime := none, srt := none, transcript := none,
          last_start_time := none, last_end_time := none }

/-- Lines 223-231 of `get_transcript`: resolve `end_time` when the
caller passed a falsy one (`None`, or `0`, since `if not end_time:`
tests truthiness).  `tdft` models `timedelta_from_title` (regex plus
the external dateutil parse); `tdft t = none` models it raising, which
the bare `except:` turns into the 3600 default.  A `none` title makes
`timedelta_from_title` raise as well (regex on `None`), also caught by
the bare `except:`.  `self.metadata['runtime'].pop()` mutates the
stored metadata, hence the updated handle in the result.  When
`self.metadata` is `None` the subscript raises `TypeError`, which the
`except IndexError` clause does not catch. -/
def resolve_end_time (tdft : List Char → Option Int) (s : Show)
    (end_time : Option Int) : Except PyErr (Int × Show) :=
  if end_time = none ∨ end_time = some 0 then
    match s.metadata with
    | none => .error .typeError
    | some md =>
      match md.runtime.getLast? with
      | some rt =>
        let md1 : Metadata := { md with runtime := md.runtime.dropLast }
        match parseHMS rt with
        | some v => .ok (v, { s with metadata := some md1 })
        | none => .error .valueError
      | none =>
        match s.title with
        | some t => .ok ((tdft t).getD 3600, s)
        | none => .ok (3600, s)
  else
    match end_time with
    | some e => .ok (e, s)
    | none => .ok (3600, s)

/-- `Show.get_transcript` (lines 212-255).  Recomputation is guarded
by `if not self.transcript or updated_times:` where
`updated_times = (self.last_start_time == start_time and
self.last_end_time == end_time)` — note the equality, and note that no
code ever assigns `last_start_time`/`last_end_time`.  On a fetch
failure the `except Exception` clause warns and falls through, so the
handle's previous transcript is returned.  The result carries the
updated handle, the returned transcript and the list of windows
fetched during the call. -/
def get_transcript (remote : Int → Int → FetchResult)
    (tdft : List Char → Option Int) (s : Show)
    (start_time : Int) (end_time : Option Int) :
    Except PyErr (Show × Option Doc × List (Int × Int)) :=
  if s.transcript = none ∨
      (s.last_start_time = some start_time ∧ s.last_end_time = end_time) then
    match resolve_end_time tdft s end_time with
    | .error err => .error err
    | .ok (et, s1) =>
      match _srt_gen_from_url remote et with
      | (trace, .ok bs) =>
        .ok ({ s1 with srt := some bs, transcript := some bs },
             some bs, trace)
      | (trace, .error _) => .ok (s1, s1.transcript, trace)
  else
    .ok (s, s.transcript, [])

/-! ## Transcript flattening (`_make_ts_from_srt`) -/

/-- Python `s.replace(p, rep)` for a four-character pattern
`p1 p2 p3 p4` (used for `'>>> '`): leftmost, non-overlapping. -/
def replace4 (p1 p2 p3 p4 : Char) (rep : List Char) :
    List Char → List Char
  | c1 :: c2 :: c3 :: c4 :: rest =>
    if c1 = p1 ∧ c2 = p2 ∧ c3 = p3 ∧ c4 = p4 then
      rep ++ replace4 p1 p2 p3 p4 rep rest
    else
      c1 :: replace4 p1 p2 p3 p4 rep (c2 :: c3 :: c4 :: rest)
  | s => s

/-- Python `s.replace(p, rep)` for a one-character pattern (used for
`'\n'`). -/
def replace1 (p : Char) (rep : List Char) : List Char → List Char
  | [] => []
  | c :: rest =>
    if c = p then rep ++ replace1 p rep rest
    else c :: replace1 p rep rest

/-- Python `s.split(ab)` for a two-character separator `a b` (used for
`'>>'`): leftmost, non-overlapping, empty pieces kept.  `acc` holds
the current piece, reversed. -/
def split2Aux (a b : Char) (acc : List Char) :
    List Char → List (List Char)
  | [] => [acc.reverse]
  | [x] => [(x :: acc).reverse]
  | x :: y :: rest =>
    if x = a ∧ y = b then acc.reverse :: split2Aux a b [] rest
    else split2Aux a b (x :: acc) (y :: rest)

/-- Number of leftmost, non-overlapping occurrences of the
two-character pattern `a b`. -/
def count2 (a b : Char) : List Char → Nat
  | [] => 0
  | [_] => 0
  | x :: y :: rest =>
    if x = a ∧ y = b then count2 a b rest + 1
    else count2 a b (y :: rest)

/-- Line 416 and 418 of `_make_ts_from_srt`:
`ts.replace('>>> ', '>>').replace('\n', ' ')` followed by
`ts.split('>>')`.  The SRT parse and `TranscriptWriter` flattening
performed by the external pycaption library (line 414 and the write on
line 416), and the pre-parse normalization of lines 407-412, are
abstracted into the flattened input stream `ts`. -/
def _make_ts_from_srt (ts : List Char) : List (List Char) :=
  split2Aux '>' '>' []
    (replace1 '\n' [' '] (replace4 '>' '>' '>' ' ' ['>', '>'] ts))

/-! ## Helper definitions for the theorems -/

/-- The parsed body of a fetch result (`[]` for a failure; only used
where the fetch succeeded). -/
def bodyOf : FetchResult → List Caption
  | .success cs => cs
  | .failure _ => []

/-- The payload sequence a fetch trace delivered. -/
def payloads (remote : Int → Int → FetchResult)
    (tr : List (Int × Int)) : List (List Caption) :=
  tr.map fun w => bodyOf (remote w.1 w.2)

/-- An archive on which every window fetch returns a success status. -/
def allSuccess (remote : Int → Int → FetchResult) : Prop :=
  ∀ t0 t1, ∃ cs, remote t0 t1 = .success cs

/-- The cross-boundary relation between consecutive emitted blocks:
every cue of the later block starts and ends no earlier than the end
of the last cue of the earlier block. -/
def boundaryLe (b1 b2 : Block) : Prop :=
  ∀ p ∈ b2, blockLastEnd b1 ≤ p.2.start ∧ blockLastEnd b1 ≤ p.2.end_

/-- A `Show` handle as produced by `Show.init` when the metadata
lookup raised `requests.HTTPError`: no metadata, no title, empty
caches. -/
def showNoMeta : Show :=
  { metadata := none, title := none, identifier := ['i'],
    runtime := none, srt := none, transcript := none,
    last_start_time := none, last_end_time := none }

/-- A concrete archive: every window fetch succeeds with one cue
`[0, 10]`. -/
def remoteConst : Int → Int → FetchResult :=
  fun _ _ => .success [⟨0, 10, ["x"]⟩]

/-- A `timedelta_from_title` model that always raises (no parseable
time range in the title). -/
def tdftNone : List Char → Option Int := fun _ => none

/-- The document `remoteConst` yields for `end_time = 100` (one
window). -/
def c3doc1 : Doc := [[(1, ⟨0, 10, ["x"]⟩)]]

/-- The document `remoteConst` yields for `end_time = 200` (three
windows, offsets accumulating). -/
def c3doc2 : Doc :=
  [[(1, ⟨0, 10, ["x"]⟩)], [(1, ⟨10, 20, ["x"]⟩)],
    [(1, ⟨20, 30, ["x"]⟩)]]

/-- `showNoMeta` after a successful `get_transcript` call that cached
`c3doc1`.  Note `last_start_time`/`last_end_time` stay `None`: the
source never assigns them. -/
def c3show1 : Show :=
  { showNoMeta with srt := some c3doc1, transcript := some c3doc1 }

/-! ## Basic lemmas about the stitcher -/

theorem stitchBlock_nil (f : Bool) (e : Int) :
    stitchBlock f e [] = (e, []) := by
  simp [stitchBlock]

theorem stitchBlock_ne_nil {w : List Caption} (e : Int) (h : w ≠ []) :
    stitchBlock false e w =
      (lastEnd (w.map (shiftCaption e)) e,
        List.enumFrom 1 (w.map (shiftCaption e))) := by
  simp [stitchBlock, h]

theorem lastEnd_map_shift {w : List Caption} (e d d' : Int) (h : w ≠ []) :
    lastEnd (w.map (shiftCaption e)) d = lastEnd w d' + e := by
  unfold lastEnd
  rw [List.getLast?_map, List.getLast?_eq_getLast w h]
  simp [shiftCaption]

theorem stitchAll_nil (e : Int) : stitchAll e [] = (e, []) := rfl

theorem stitchAll_cons (e : Int) (w : List Caption)
    (ws : List (List Caption)) :
    stitchAll e (w :: ws) =
      ((stitchAll (stitchBlock false e w).1 ws).1,
        (stitchBlock false e w).2 ::
          (stitchAll (stitchBlock false e w).1 ws).2) := by
  simp [stitchAll]

theorem stitchAll_append (e : Int) (xs ys : List (List Caption)) :
    stitchAll e (xs ++ ys) =
      ((stitchAll (stitchAll e xs).1 ys).1,
        (stitchAll e xs).2 ++ (stitchAll (stitchAll e xs).1 ys).2) := by
  induction xs generalizing e with
  | nil => simp [stitchAll]
  | cons w xs ih => simp [stitchAll_cons, ih]

theorem blockLastEnd_enumFrom {l : List Caption} (h : l ≠ []) :
    blockLastEnd (List.enumFrom 1 l) = lastEnd l 0 := by
  unfold blockLastEnd lastEnd
  rw [List.getLast?_enumFrom, List.getLast?_eq_getLast l h]
  simp

/-- The accumulator a non-empty window leaves behind is exactly the end
time of the last cue of the block emitted for that window. -/
theorem stitchBlock_fst_eq_blockLastEnd {w : List Caption} (e : Int)
    (h : w ≠ []) :
    (stitchBlock false e w).1 = blockLastEnd (stitchBlock false e w).2 := by
  have hm : w.map (shiftCaption e) ≠ [] := by
    simpa using h
  rw [stitchBlock_ne_nil e h]
  rw [blockLastEnd_enumFrom hm, lastEnd_map_shift e e 0 h,
    lastEnd_map_shift e 0 0 h]

/-! ## Unfolding lemmas for the fetch loop -/

theorem srtLoop_fail (remote : Int → Int → FetchResult) (E t0 t1 : Int)
    (first : Bool) (e : Int) (s : Nat) (h : remote t0 t1 = .failure s) :
    srtLoop remote E t0 t1 first e = ([(t0, t1)], .error s) := by
  rw [srtLoop, h]

theorem srtLoop_success_cont (remote : Int → Int → FetchResult)
    (E t0 t1 : Int) (first : Bool) (e : Int) (cs : List Caption)
    (h : remote t0 t1 = .success cs) (hn : t1 + 60 ≤ E) :
    srtLoop remote E t0 t1 first e =
      ((t0, t1) :: (srtLoop remote E (t1 + 1) (t1 + 60) false
          (stitchBlock false e cs).1).1,
        ((srtLoop remote E (t1 + 1) (t1 + 60) false
            (stitchBlock false e cs).1).2).map
          (List.cons (stitchBlock false e cs).2)) := by
  rw [srtLoop, h]
  cases first <;>
    rcases hr : srtLoop remote E (t1 + 1) (t1 + 60) false
        (stitchBlock false e cs).1 with ⟨tr, res⟩ <;>
      cases res <;> simp [hn, hr, Except.map]

theorem srtLoop_success_stop (remote : Int → Int → FetchResult)
    (E t0 t1 : Int) (first : Bool) (e : Int) (cs : List Caption)
    (h : remote t0 t1 = .success cs) (hn : ¬ (t1 + 60 ≤ E)) :
    srtLoop remote E t0 t1 first e =
      ([(t0, t1)], .ok [(stitchBlock false e cs).2]) := by
  rw [srtLoop, h]
  cases first <;> simp [hn]

theorem nextWindows_pos {E t1 : Int} (h : t1 + 60 ≤ E) :
    nextWindows E t1 = (t1 + 1, t1 + 60) :: nextWindows E (t1 + 60) := by
  rw [nextWindows]
  simp [h]

theorem nextWindows_neg {E t1 : Int} (h : ¬ (t1 + 60 ≤ E)) :
    nextWindows E t1 = [] := by
  rw [nextWindows]
  simp [h]

/-- When every fetch succeeds, the loop's fetch trace starting from
window `(t0, t1)` is `(t0, t1)` followed by `nextWindows`. -/
theorem srtLoop_trace (remote : Int → Int → FetchResult) (E : Int)
    (hs : allSuccess remote) (t1 t0 : Int) (first : Bool) (e : Int) :
    (srtLoop remote E t0 t1 first e).1 = (t0, t1) :: nextWindows E t1 := by
  induction t1 using nextWindows.induct E generalizing t0 first e with
  | case1 x hx ih =>
    rcases hs t0 x with ⟨cs, hcs⟩
    rw [srtLoop_success_cont remote E t0 x first e cs hcs hx,
      nextWindows_pos hx]
    simp [ih]
  | case2 x hx =>
    rcases hs t0 x with ⟨cs, hcs⟩
    rw [srtLoop_success_stop remote E t0 x first e cs hcs hx,
      nextWindows_neg hx]

/-- Bridge between the interleaved loop and the pure stitching pass:
when the loop returns blocks, they are `stitchAll` applied to the
payloads of the windows it fetched. -/
theorem srtLoop_ok_blocks (remote : Int → Int → FetchResult) (E : Int)
    (t1 t0 e : Int) (tr : List (Int × Int)) (bs : Doc)
    (hok : srtLoop remote E t0 t1 false e = (tr, .ok bs)) :
    bs = (stitchAll e (payloads remote tr)).2 := by
  induction t1 using nextWindows.induct E generalizing t0 e tr bs with
  | case1 x hx ih =>
    rcases hrem : remote t0 x with cs | s
    · rw [srtLoop_success_cont remote E t0 x false e cs hrem hx] at hok
      rcases hr : srtLoop remote E (x + 1) (x + 60) false
          (stitchBlock false e cs).1 with ⟨tr', res'⟩
      rw [hr] at hok
      cases res' with
      | ok bs' =>
        simp only [Except.map] at hok
        rw [Prod.mk.injEq] at hok
        obtain ⟨rfl, hok2⟩ := hok
        injection hok2 with hok3
        subst hok3
        have hp : payloads remote ((t0, x) :: tr') =
            cs :: payloads remote tr' := by
          simp [payloads, bodyOf, hrem]
        rw [hp, stitchAll_cons]
        simp [ih _ _ _ _ hr]
      | error s =>
        simp [Except.map] at hok
    · rw [srtLoop_fail remote E t0 x false e s hrem] at hok
      simp at hok
  | case2 x hx =>
    rcases hrem : remote t0 x with cs | s
    · rw [srtLoop_success_stop remote E t0 x false e cs hrem hx] at hok
      rw [Prod.mk.injEq] at hok
      obtain ⟨rfl, hok2⟩ := hok
      injection hok2 with hok3
      subst hok3
      have hp : payloads remote [(t0, x)] = [cs] := by
        simp [payloads, bodyOf, hrem]
      rw [hp, stitchAll_cons]
      simp [stitchAll_nil]
    · rw [srtLoop_fail remote E t0 x false e s hrem] at hok
      simp at hok

/-- If the fetch of the `k`-th attempted window is the first to return
a non-success status, the loop fetches exactly the windows up to and
including that one and aborts with the failure status, discarding the
blocks of the windows already stitched. -/
theorem srtLoop_error_at (remote : Int → Int → FetchResult) (E : Int)
    (s : Nat) :
    ∀ (k : Nat) (t1 t0 : Int) (first : Bool) (e : Int)
      (hk : k < ((t0, t1) :: nextWindows E t1).length),
      (∀ w ∈ ((t0, t1) :: nextWindows E t1).take k,
        ∃ cs, remote w.1 w.2 = .success cs) →
      remote (((t0, t1) :: nextWindows E t1).get ⟨k, hk⟩).1
          (((t0, t1) :: nextWindows E t1).get ⟨k, hk⟩).2 = .failure s →
      srtLoop remote E t0 t1 first e =
        (((t0, t1) :: nextWindows E t1).take (k + 1), .error s) := by
  intro k
  induction k with
  | zero =>
    intro t1 t0 first e hk hsucc hfail
    simp only [List.get] at hfail
    rw [srtLoop_fail remote E t0 t1 first e s hfail]
    simp
  | succ k ih =>
    intro t1 t0 first e hk hsucc hfail
    obtain ⟨cs, hcs⟩ := hsucc (t0, t1) (by simp [List.take_succ_cons])
    by_cases ht : t1 + 60 ≤ E
    · have hnw : nextWindows E t1 = (t1 + 1, t1 + 60) ::
          nextWindows E (t1 + 60) := nextWindows_pos ht
      have h0 : k < (nextWindows E t1).length :=
        Nat.lt_of_succ_lt_succ (by simpa using hk)
      have hk' : k < ((t1 + 1, t1 + 60) ::
          nextWindows E (t1 + 60)).length := by
        rw [← hnw]
        exact h0
      have hsucc' : ∀ w ∈ ((t1 + 1, t1 + 60) ::
          nextWindows E (t1 + 60)).take k,
          ∃ cs', remote w.1 w.2 = .success cs' := by
        intro w hw
        refine hsucc w ?_
        rw [List.take_succ_cons]
        refine List.mem_cons_of_mem _ ?_
        rw [hnw]
        exact hw
      have hfail' : remote ((((t1 + 1, t1 + 60) ::
            nextWindows E (t1 + 60)).get ⟨k, hk'⟩).1)
          ((((t1 + 1, t1 + 60) :: nextWindows E (t1 + 60)).get
            ⟨k, hk'⟩).2) = .failure s := by
        have hstep : ((t0, t1) :: nextWindows E t1).get ⟨k + 1, hk⟩ =
            (nextWindows E t1).get ⟨k, h0⟩ := rfl
        have hcast := List.get_of_eq hnw ⟨k, h0⟩
        rw [hstep, hcast] at hfail
        exact hfail
      rw [srtLoop_success_cont remote E t0 t1 first e cs hcs ht,
        ih (t1 + 60) (t1 + 1) false (stitchBlock false e cs).1 hk'
          hsucc' hfail', hnw]
      simp [List.take_succ_cons, Except.map]
    · exfalso
      rw [nextWindows_neg ht] at hk
      simp at hk

/-! ## Invariants of the stitching pass -/

/-- Every emitted block carries sequence indices `1..k` (the SRT
writer renumbers each window's document from 1). -/
theorem stitchBlock_map_fst (f : Bool) (e : Int) (w : List Caption) :
    ((stitchBlock f e w).2).map Prod.fst =
      List.range' 1 ((stitchBlock f e w).2).length := by
  unfold stitchBlock
  by_cases hw : w ≠ [] <;> cases f <;>
    simp [hw, List.enumFrom_map_fst, List.enumFrom_length]

theorem stitchAll_map_fst (ws : List (List Caption)) : ∀ (e : Int),
    ∀ b ∈ (stitchAll e ws).2,
      b.map Prod.fst = List.range' 1 b.length := by
  induction ws with
  | nil => intro e b hb; simp [stitchAll] at hb
  | cons w ws ih =>
    intro e b hb
    rw [stitchAll_cons] at hb
    rcases List.mem_cons.mp hb with hb0 | hbs
    · rw [hb0]
      exact stitchBlock_map_fst false e w
    · exact ih _ b hbs

/-- Every cue of a non-empty window's emitted block has been shifted
by the incoming accumulator, so its times dominate it when the raw
times are non-negative. -/
theorem mem_stitchBlock_ge {w : List Caption} (e : Int) (h : w ≠ [])
    (hc : ∀ c ∈ w, 0 ≤ c.start ∧ 0 ≤ c.end_) :
    ∀ p ∈ (stitchBlock false e w).2, e ≤ p.2.start ∧ e ≤ p.2.end_ := by
  intro p hp
  rw [stitchBlock_ne_nil e h] at hp
  have h2 := List.snd_mem_of_mem_enumFrom hp
  rcases List.mem_map.mp h2 with ⟨c, hcw, hshift⟩
  rcases hc c hcw with ⟨hs, he⟩
  rw [← hshift]
  constructor <;> simp [shiftCaption] <;> omega

theorem get_zero_eq_headD {α : Type} (l : List α) (h : 0 < l.length)
    (d : α) : l.get ⟨0, h⟩ = l.head?.getD d := by
  cases l with
  | nil => simp at h
  | cons x xs => rfl

/-- Cross-boundary monotonicity of the stitched document: with no
empty windows and non-negative raw cue times, every cue of the first
block is bounded below by the incoming accumulator, and consecutive
blocks satisfy `boundaryLe`. -/
theorem stitchAll_boundary (ws : List (List Caption)) : ∀ (e : Int),
    (∀ w ∈ ws, w ≠ []) →
    (∀ w ∈ ws, ∀ c ∈ w, 0 ≤ c.start ∧ 0 ≤ c.end_) →
    (∀ p ∈ ((stitchAll e ws).2.head?.getD []),
      e ≤ p.2.start ∧ e ≤ p.2.end_) ∧
    List.Chain' boundaryLe (stitchAll e ws).2 := by
  induction ws with
  | nil =>
    intro e _ _
    constructor
    · intro p hp
      simp [stitchAll] at hp
    · simp [stitchAll]
  | cons w ws ih =>
    intro e h1 h2
    have hw : w ≠ [] := h1 w (List.mem_cons_self w ws)
    have hwc : ∀ c ∈ w, 0 ≤ c.start ∧ 0 ≤ c.end_ :=
      h2 w (List.mem_cons_self w ws)
    have h1' : ∀ v ∈ ws, v ≠ [] := fun v hv =>
      h1 v (List.mem_cons_of_mem w hv)
    have h2' : ∀ v ∈ ws, ∀ c ∈ v, 0 ≤ c.start ∧ 0 ≤ c.end_ := fun v hv =>
      h2 v (List.mem_cons_of_mem w hv)
    obtain ⟨ihHead, ihChain⟩ := ih (stitchBlock false e w).1 h1' h2'
    rw [stitchAll_cons]
    constructor
    · intro p hp
      simp only [List.head?_cons, Option.getD_some] at hp
      exact mem_stitchBlock_ge e hw hwc p hp
    · rw [List.chain'_cons']
      refine ⟨?_, ihChain⟩
      intro y hy p hp
      have hyh : y = ((stitchAll (stitchBlock false e w).1 ws).2).head?.getD [] := by
        cases hh : ((stitchAll (stitchBlock false e w).1 ws).2).head? with
        | none => rw [hh] at hy; simp at hy
        | some z =>
          rw [hh] at hy
          simp at hy
          subst hy
          rfl
      rw [← stitchBlock_fst_eq_blockLastEnd e hw]
      exact ihHead p (by rw [← hyh]; exact hp)

/-- Python `split` on a two-character separator yields one more piece
than the number of (leftmost, non-overlapping) separator occurrences;
no piece is ever dropped. -/
theorem split2Aux_length (a b : Char) : ∀ (s acc : List Char),
    (split2Aux a b acc s).length = count2 a b s + 1
  | [], _ => by simp [split2Aux, count2]
  | [x], _ => by simp [split2Aux, count2]
  | x :: y :: rest, acc => by
    by_cases h : x = a ∧ y = b
    · simp [split2Aux, count2, h, split2Aux_length a b rest []]
    · simp [split2Aux, count2, h,
        split2Aux_length a b (y :: rest) (x :: acc)]

/-- The loop always fetches the window it was started on first. -/
theorem srtLoop_head (remote : Int → Int → FetchResult) (E t0 t1 : Int)
    (f : Bool) (e : Int) :
    ∃ rest, (srtLoop remote E t0 t1 f e).1 = (t0, t1) :: rest := by
  rcases hrem : remote t0 t1 with cs | s
  · by_cases ht : t1 + 60 ≤ E
    · rw [srtLoop_success_cont remote E t0 t1 f e cs hrem ht]
      exact ⟨_, rfl⟩
    · rw [srtLoop_success_stop remote E t0 t1 f e cs hrem ht]
      exact ⟨[], rfl⟩
  · rw [srtLoop_fail remote E t0 t1 f e s hrem]
    exact ⟨[], rfl⟩

/-! ## Claim theorems -/

/-- C1: for every pair of consecutive non-empty windows in a stitched
fetch sequence, where the last cue of the earlier window's emitted
block ends (after offsetting) at `E_i = blockLastEnd b1`, every cue of
the later window is emitted with its raw start and end times each
increased by exactly `E_i`, and the accumulator is then updated to the
post-offset end time of the later window's last cue
(`blockLastEnd b2`). -/
theorem C1_offset_correctness (e : Int) (ws1 ws2 : List (List Caption))
    (w1 w2 : List Caption) (h1 : w1 ≠ []) (h2 : w2 ≠ []) :
    ∃ (b1 b2 : Block) (bs2 : Doc),
      (stitchAll e (ws1 ++ w1 :: w2 :: ws2)).2 =
        (stitchAll e ws1).2 ++ b1 :: b2 :: bs2 ∧
      b2 = List.enumFrom 1 (w2.map (shiftCaption (blockLastEnd b1))) ∧
      (stitchAll e (ws1 ++ [w1, w2])).1 = blockLastEnd b2 := by
  refine ⟨(stitchBlock false (stitchAll e ws1).1 w1).2,
    (stitchBlock false
      (stitchBlock false (stitchAll e ws1).1 w1).1 w2).2,
    (stitchAll (stitchBlock false
      (stitchBlock false (stitchAll e ws1).1 w1).1 w2).1 ws2).2,
    ?_, ?_, ?_⟩
  · rw [stitchAll_append]
    simp [stitchAll_cons]
  · rw [← stitchBlock_fst_eq_blockLastEnd _ h1,
      stitchBlock_ne_nil _ h2]
  · rw [stitchAll_append]
    simp only [stitchAll_cons, stitchAll_nil]
    exact stitchBlock_fst_eq_blockLastEnd _ h2

/-- Witness for C1 at a concrete input: two one-cue windows, the
first ending at 10, so the second window's cue `[0, 5]` is emitted as
`[10, 15]` and the accumulator becomes 15. -/
theorem C1_offset_correctness_witness :
    (([⟨0, 10, ["a"]⟩] : List Caption) ≠ []) ∧
    (([⟨0, 5, ["b"]⟩] : List Caption) ≠ []) ∧
    (∃ (b1 b2 : Block) (bs2 : Doc),
      (stitchAll 0 ([] ++ [⟨0, 10, ["a"]⟩] :: [⟨0, 5, ["b"]⟩] :: [])).2 =
        (stitchAll 0 []).2 ++ b1 :: b2 :: bs2 ∧
      b2 = List.enumFrom 1
        ([⟨0, 5, ["b"]⟩].map (shiftCaption (blockLastEnd b1))) ∧
      (stitchAll 0 ([] ++ [[⟨0, 10, ["a"]⟩], [⟨0, 5, ["b"]⟩]])).1 =
        blockLastEnd b2) :=
  ⟨by decide, by decide,
    C1_offset_correctness 0 [] [] [⟨0, 10, ["a"]⟩] [⟨0, 5, ["b"]⟩]
      (by decide) (by decide)⟩

/-- C2 fails on the code: stitching two non-empty one-cue windows
yields a document whose cue indices are `[1, 1]`, not the globally
contiguous `1..2` the claim requires — each window is renumbered from
1 by the per-window SRT serialization. -/
theorem C2_counterexample :
    ((stitchAll 0 [[⟨0, 10, ["a"]⟩], [⟨0, 5, ["b"]⟩]]).2.flatten.map
        Prod.fst = [1, 1]) ∧
    ((stitchAll 0 [[⟨0, 10, ["a"]⟩],
        [⟨0, 5, ["b"]⟩]]).2.flatten.map Prod.fst ≠
      List.range' 1
        (stitchAll 0 [[⟨0, 10, ["a"]⟩], [⟨0, 5, ["b"]⟩]]).2.flatten.length) := by
  constructor <;> decide

/-- C2 (amended): for every valid window sequence with no empty
windows and non-negative raw cue times, cue start/end times in the
final document are non-decreasing across window boundaries, and each
window's emitted block carries sequence indices `1..k` — the
numbering restarts at 1 in every window instead of continuing
globally. -/
theorem C2_amended (e : Int) (ws : List (List Caption))
    (hne : ∀ w ∈ ws, w ≠ [])
    (hnn : ∀ w ∈ ws, ∀ c ∈ w, 0 ≤ c.start ∧ 0 ≤ c.end_) :
    (∀ b ∈ (stitchAll e ws).2,
      b.map Prod.fst = List.range' 1 b.length) ∧
    List.Chain' boundaryLe (stitchAll e ws).2 :=
  ⟨stitchAll_map_fst ws e, (stitchAll_boundary ws e hne hnn).2⟩

/-- Witness for C2 (amended) at the concrete two-window input. -/
theorem C2_amended_witness :
    (∀ w ∈ [[(⟨0, 10, ["a"]⟩ : Caption)], [⟨0, 5, ["b"]⟩]], w ≠ []) ∧
    (∀ w ∈ [[(⟨0, 10, ["a"]⟩ : Caption)], [⟨0, 5, ["b"]⟩]],
      ∀ c ∈ w, 0 ≤ c.start ∧ 0 ≤ c.end_) ∧
    ((∀ b ∈ (stitchAll 0 [[(⟨0, 10, ["a"]⟩ : Caption)],
        [⟨0, 5, ["b"]⟩]]).2, b.map Prod.fst = List.range' 1 b.length) ∧
      List.Chain' boundaryLe
        (stitchAll 0 [[(⟨0, 10, ["a"]⟩ : Caption)], [⟨0, 5, ["b"]⟩]]).2) :=
  ⟨by decide, by decide,
    C2_amended 0 [[⟨0, 10, ["a"]⟩], [⟨0, 5, ["b"]⟩]]
      (by decide) (by decide)⟩

/-- C5: inserting an empty window anywhere in the payload sequence
leaves the offset accumulator untouched: the final accumulator equals
the one of the run without the empty window, the blocks emitted after
the empty window are identical to those of the run without it, and the
empty window contributes only an empty block. -/
theorem C5_empty_window_transparency (e : Int)
    (ws1 ws2 : List (List Caption)) :
    (stitchAll e (ws1 ++ [] :: ws2)).1 =
      (stitchAll e (ws1 ++ ws2)).1 ∧
    (stitchAll e (ws1 ++ [] :: ws2)).2 =
      (stitchAll e ws1).2 ++ [] ::
        (stitchAll (stitchAll e ws1).1 ws2).2 ∧
    (stitchAll e (ws1 ++ ws2)).2 =
      (stitchAll e ws1).2 ++ (stitchAll (stitchAll e ws1).1 ws2).2 := by
  refine ⟨?_, ?_, ?_⟩ <;>
    simp [stitchAll_append, stitchAll_cons, stitchBlock_nil]

/-- Consecutive attempted windows always satisfy `t0' = t1 + 1` and
`t1' = t1 + 60`. -/
theorem nextWindows_chain (E : Int) : ∀ (t1 t0 : Int),
    List.Chain' (fun w1 w2 => w2.1 = w1.2 + 1 ∧ w2.2 = w1.2 + 60)
      ((t0, t1) :: nextWindows E t1) := by
  intro t1
  induction t1 using nextWindows.induct E with
  | case1 x hx ih =>
    intro t0
    rw [nextWindows_pos hx]
    exact List.chain'_cons.mpr ⟨⟨rfl, rfl⟩, ih (x + 1)⟩
  | case2 x hx =>
    intro t0
    rw [nextWindows_neg hx]
    simp

/-- Every window attempted after the first has its end bounded by the
requested total `E`. -/
theorem nextWindows_le (E : Int) : ∀ (t1 : Int),
    ∀ w ∈ nextWindows E t1, w.2 ≤ E := by
  intro t1
  induction t1 using nextWindows.induct E with
  | case1 x hx ih =>
    rw [nextWindows_pos hx]
    intro w hw
    rcases List.mem_cons.mp hw with rfl | hw'
    · exact hx
    · exact ih w hw'
  | case2 x hx =>
    rw [nextWindows_neg hx]
    simp

/-- C4 fails on the code in two ways.  First, the initial window
`(0, 60)` is fetched unconditionally — with `E = 0` the loop still
fetches a window whose end `60` exceeds `E`.  Second, subsequent
windows do not satisfy `t1_i = t0_i + 60`: with `E = 120` the second
attempted window is `(61, 120)`, whose end is `t0 + 59`. -/
theorem C4_counterexample :
    (_srt_gen_from_url (fun _ _ => FetchResult.success []) 0).1 =
      [(0, 60)] ∧
    ¬ ((60 : Int) ≤ 0) ∧
    (_srt_gen_from_url (fun _ _ => FetchResult.success []) 120).1 =
      [(0, 60), (61, 120)] ∧
    ((120 : Int) ≠ 61 + 60) := by
  refine ⟨?_, by norm_num, ?_, by norm_num⟩ <;>
    simp [_srt_gen_from_url, srtLoop, stitchBlock]

/-- C4 (amended): for every total end time `E` and every archive on
which all fetches succeed, the fetched windows are exactly
`expectedTrace E`: the first window is always `(0, 60)` (fetched even
when its end exceeds `E`), consecutive windows satisfy
`t0_next = t1 + 1` and `t1_next = t1 + 60`, and every window after the
first is generated only while its end does not exceed `E`. -/
theorem C4_amended (remote : Int → Int → FetchResult) (E : Int)
    (hs : allSuccess remote) :
    (_srt_gen_from_url remote E).1 = expectedTrace E ∧
    (expectedTrace E).head? = some (0, 60) ∧
    List.Chain' (fun w1 w2 => w2.1 = w1.2 + 1 ∧ w2.2 = w1.2 + 60)
      (expectedTrace E) ∧
    (∀ w ∈ (expectedTrace E).tail, w.2 ≤ E) := by
  refine ⟨?_, rfl, ?_, ?_⟩
  · exact srtLoop_trace remote E hs 60 0 true 0
  · exact nextWindows_chain E 60 0
  · exact nextWindows_le E 60

/-- Witness for C4 (amended) at `E = 120` with an archive that always
returns an empty success. -/
theorem C4_amended_witness :
    allSuccess (fun _ _ => FetchResult.success []) ∧
    ((_srt_gen_from_url (fun _ _ => FetchResult.success []) 120).1 =
        expectedTrace 120 ∧
      (expectedTrace 120).head? = some (0, 60) ∧
      List.Chain' (fun w1 w2 => w2.1 = w1.2 + 1 ∧ w2.2 = w1.2 + 60)
        (expectedTrace 120) ∧
      (∀ w ∈ (expectedTrace 120).tail, w.2 ≤ 120)) :=
  ⟨fun _ _ => ⟨[], rfl⟩,
    C4_amended (fun _ _ => FetchResult.success []) 120
      (fun _ _ => ⟨[], rfl⟩)⟩

/-- C6: if some window's fetch returns a non-success status (and all
earlier fetches succeeded), the whole reassembly aborts at that
window: the fetch trace stops there (no remaining windows are
fetched), the failure status is surfaced to the caller of the
stitching call, and no document is returned — the blocks of windows
already stitched are discarded. -/
theorem C6_fetch_failure_aborts (remote : Int → Int → FetchResult)
    (E : Int) (s : Nat) (k : Nat) (hk : k < (expectedTrace E).length)
    (hsucc : ∀ w ∈ (expectedTrace E).take k,
      ∃ cs, remote w.1 w.2 = .success cs)
    (hfail : remote ((expectedTrace E).get ⟨k, hk⟩).1
      ((expectedTrace E).get ⟨k, hk⟩).2 = .failure s) :
    _srt_gen_from_url remote E =
      ((expectedTrace E).take (k + 1), .error s) :=
  srtLoop_error_at remote E s k 60 0 true 0 hk hsucc hfail

/-- Witness for C6: the second window's fetch fails with status 500,
so with `E = 120` the loop fetches `(0, 60)` and `(61, 120)` only and
aborts with status 500. -/
theorem C6_fetch_failure_aborts_witness :
    ∃ hk : 1 < (expectedTrace 120).length,
      (∀ w ∈ (expectedTrace 120).take 1,
        ∃ cs, (fun t0 _ => if t0 = 0 then FetchResult.success []
          else FetchResult.failure 500) w.1 w.2 = .success cs) ∧
      ((fun t0 _ => if t0 = 0 then FetchResult.success []
          else FetchResult.failure 500) : Int → Int → FetchResult)
          ((expectedTrace 120).get ⟨1, hk⟩).1
          ((expectedTrace 120).get ⟨1, hk⟩).2 = .failure 500 ∧
      _srt_gen_from_url
          (fun t0 _ => if t0 = 0 then FetchResult.success []
            else FetchResult.failure 500) 120 =
        ((expectedTrace 120).take 2, .error 500) := by
  have hexp : expectedTrace 120 = [(0, 60), (61, 120)] := by
    simp [expectedTrace, nextWindows]
  have hk : 1 < (expectedTrace 120).length := by
    rw [hexp]
    norm_num
  have hsucc : ∀ w ∈ (expectedTrace 120).take 1,
      ∃ cs, (fun t0 _ => if t0 = 0 then FetchResult.success []
        else FetchResult.failure 500) w.1 w.2 = .success cs := by
    rw [hexp]
    intro w hw
    simp at hw
    subst hw
    exact ⟨[], rfl⟩
  have hfail : ((fun t0 _ => if t0 = 0 then FetchResult.success []
      else FetchResult.failure 500) : Int → Int → FetchResult)
      ((expectedTrace 120).get ⟨1, hk⟩).1
      ((expectedTrace 120).get ⟨1, hk⟩).2 = .failure 500 := by
    have h1 : (expectedTrace 120).get ⟨1, hk⟩ = (61, 120) := by
      rw [List.get_of_eq hexp]
      rfl
    rw [h1]
    norm_num
  exact ⟨hk, hsucc, hfail,
    C6_fetch_failure_aborts _ 120 500 1 hk hsucc hfail⟩

/-- C3 fails on the code, and the code contradicts its own intent: the
guard is `if not self.transcript or updated_times:` where the variable
named `updated_times` actually holds "the requested times EQUAL the
cached ones", and `last_start_time`/`last_end_time` are initialized to
`None` and never assigned.  Concretely: a first call with
`end_time = 100` computes and caches the one-window document; a second
call with the different `end_time = 200` does NOT recompute — it
fetches nothing and returns the stale document — although a fresh
stitch at 200 yields a different (three-window) document. -/
theorem C3_cache_code_bug :
    get_transcript remoteConst tdftNone showNoMeta 0 (some 100) =
      .ok (c3show1, some c3doc1, [(0, 60)]) ∧
    get_transcript remoteConst tdftNone c3show1 0 (some 200) =
      .ok (c3show1, some c3doc1, []) ∧
    (_srt_gen_from_url remoteConst 200).2 = .ok c3doc2 ∧
    c3doc1 ≠ c3doc2 := by
  refine ⟨?_, ?_, ?_, by decide⟩
  · simp [get_transcript, resolve_end_time, showNoMeta, c3show1,
      c3doc1, remoteConst, tdftNone, _srt_gen_from_url, srtLoop,
      stitchBlock, shiftCaption, lastEnd]
  · simp [get_transcript, resolve_end_time, c3show1, showNoMeta,
      c3doc1]
  · simp [_srt_gen_from_url, srtLoop, stitchBlock, shiftCaption,
      lastEnd, remoteConst, c3doc2]

/-- C7 fails on the code: for a handle whose metadata lookup failed
(`metadata = None`), a `get_transcript` call with no `end_time` does
NOT fall back to 3600 — `self.metadata['runtime']` raises `TypeError`
(`'NoneType' object is not subscriptable`), which the
`except IndexError` clause does not catch, so the whole call fails
before any caption stitching. -/
theorem C7_metadata_fallback_code_bug :
    Show.init none ['i'] = .ok showNoMeta ∧
    get_transcript remoteConst tdftNone showNoMeta 0 none =
      .error .typeError := by
  constructor
  · rfl
  · simp [get_transcript, resolve_end_time, showNoMeta]

/-- C9: `start_time` does not interfere with `get_transcript` on any
reachable handle (the source never assigns `last_start_time`, so it is
`None` on every reachable handle): two calls differing only in
`start_time` return identical results — same returned transcript, same
updated handle, and the very same fetched window sequence — and
whenever a call fetches at all, its window sequence begins with the
window `(0, 60)`. -/
theorem C9_start_time_noninterference (remote : Int → Int → FetchResult)
    (tdft : List Char → Option Int) (s : Show) (st1 st2 : Int)
    (et : Option Int) (h : s.last_start_time = none) :
    get_transcript remote tdft s st1 et =
      get_transcript remote tdft s st2 et ∧
    (∀ s' d tr, get_transcript remote tdft s st1 et = .ok (s', d, tr) →
      tr = [] ∨ ∃ rest, tr = (0, 60) :: rest) := by
  constructor
  · unfold get_transcript
    rw [h]
    simp
  · intro s' d tr hcall
    unfold get_transcript at hcall
    rw [h] at hcall
    simp only [reduceCtorEq, false_and, or_false] at hcall
    by_cases ht : s.transcript = none
    · rw [if_pos ht] at hcall
      rcases hres : resolve_end_time tdft s et with err | ⟨et', s1⟩
      · rw [hres] at hcall
        simp at hcall
      · rw [hres] at hcall
        dsimp only at hcall
        rcases hloop : _srt_gen_from_url remote et' with ⟨trace, res⟩
        obtain ⟨rest, hrest⟩ : ∃ rest, trace = (0, 60) :: rest := by
          rcases srtLoop_head remote et' 0 60 true 0 with ⟨rest, hr⟩
          refine ⟨rest, ?_⟩
          have hfst : (_srt_gen_from_url remote et').1 = trace := by
            rw [hloop]
          rw [← hfst]
          exact hr
        rw [hloop] at hcall
        cases res with
        | ok bs =>
          simp only [Except.ok.injEq, Prod.mk.injEq] at hcall
          right
          exact ⟨rest, hcall.2.2 ▸ hrest⟩
        | error err =>
          simp only [Except.ok.injEq, Prod.mk.injEq] at hcall
          right
          exact ⟨rest, hcall.2.2 ▸ hrest⟩
    · rw [if_neg ht] at hcall
      simp only [Except.ok.injEq, Prod.mk.injEq] at hcall
      left
      exact hcall.2.2.symm

/-- Witness for C9 at a concrete handle and archive, with
`start_time` 0 versus 5. -/
theorem C9_start_time_noninterference_witness :
    showNoMeta.last_start_time = none ∧
    (get_transcript remoteConst tdftNone showNoMeta 0 (some 60) =
      get_transcript remoteConst tdftNone showNoMeta 5 (some 60)) ∧
    (∀ s' d tr, get_transcript remoteConst tdftNone showNoMeta 0
        (some 60) = .ok (s', d, tr) →
      tr = [] ∨ ∃ rest, tr = (0, 60) :: rest) :=
  ⟨rfl,
    (C9_start_time_noninterference remoteConst tdftNone showNoMeta
      0 5 (some 60) rfl).1,
    (C9_start_time_noninterference remoteConst tdftNone showNoMeta
      0 5 (some 60) rfl).2⟩

/-- C10: constructing a `Show` whose metadata has one-element
`'title'` and `'runtime'` lists pops the last element from each stored
list, so after construction both are empty; a later `get_transcript`
with no `end_time` then cannot read the runtime from the metadata
(the pop raises `IndexError`) and takes the fallback path — the
title-derived duration, or 3600 when that fails. -/
theorem C10_init_pops_metadata (t rt i : List Char)
    (tdft : List Char → Option Int)
    (hparse : (parseRuntimeTuple rt).isSome = true) :
    ∃ s : Show, Show.init (some ⟨[t], [rt]⟩) i = .ok s ∧
      s.metadata = some ⟨[], []⟩ ∧ s.title = some t ∧
      resolve_end_time tdft s none = .ok ((tdft t).getD 3600, s) := by
  rcases hp : parseRuntimeTuple rt with - | r
  · rw [hp] at hparse
    simp at hparse
  · refine ⟨{ metadata := some ⟨[], []⟩,
              title := some t,
              identifier := i,
              runtime := some r,
              srt := none,
              transcript := none,
              last_start_time := none,
              last_end_time := none }, ?_, rfl, rfl, ?_⟩
    · simp [Show.init, hp]
    · simp [resolve_end_time]

/-- Witness for C10 with the runtime string `01:00:00` and a title the
fallback cannot parse, so the fallback yields 3600. -/
theorem C10_init_pops_metadata_witness :
    (parseRuntimeTuple
      ['0', '1', ':', '0', '0', ':', '0', '0']).isSome = true ∧
    (∃ s : Show, Show.init (some ⟨[['t']],
        [['0', '1', ':', '0', '0', ':', '0', '0']]⟩) ['i'] = .ok s ∧
      s.metadata = some ⟨[], []⟩ ∧ s.title = some ['t'] ∧
      resolve_end_time tdftNone s none =
        .ok ((tdftNone ['t']).getD 3600, s)) :=
  ⟨by decide,
    C10_init_pops_metadata ['t']
      ['0', '1', ':', '0', '0', ':', '0', '0'] ['i'] tdftNone
      (by decide)⟩

/-- C8 fails on the code: `_make_ts_from_srt` ends in a bare
`ts.split('>>')` — segments are not trimmed and empty segments are not
dropped.  On a stream whose only marker occurrences are the two
leading-position tokens in `">>a >>b"`, the code yields the segments
`["", "a ", "b"]`: an empty segment is kept, a segment keeps its
trailing whitespace, only two segments are non-empty, and the trailing
segment `"b"` is not blank — contradicting "exactly three non-empty
segments (or two, if the trailing segment is blank) after
trimming". -/
theorem C8_counterexample :
    _make_ts_from_srt ['>', '>', 'a', ' ', '>', '>', 'b'] =
      [[], ['a', ' '], ['b']] ∧
    [] ∈ _make_ts_from_srt ['>', '>', 'a', ' ', '>', '>', 'b'] ∧
    ((_make_ts_from_srt ['>', '>', 'a', ' ', '>', '>', 'b']).filter
      (fun seg => seg ≠ [])).length = 2 ∧
    (_make_ts_from_srt ['>', '>', 'a', ' ', '>', '>', 'b']).getLast? =
      some ['b'] := by
  refine ⟨by decide, by decide, by decide, by decide⟩

/-- C8 (amended): transcript flattening splits the flattened text on
the normalized speaker-change marker and keeps every resulting segment
verbatim — no trimming and no dropping of empty segments — so a
document whose normalized stream contains exactly two marker
occurrences yields exactly three segments (counting empty and
whitespace-padded ones). -/
theorem C8_amended (ts : List Char)
    (h : count2 '>' '>'
      (replace1 '\n' [' ']
        (replace4 '>' '>' '>' ' ' ['>', '>'] ts)) = 2) :
    (_make_ts_from_srt ts).length = 3 := by
  unfold _make_ts_from_srt
  rw [split2Aux_length, h]

/-- Witness for C8 (amended) on the stream `"a>>b>>c"`. -/
theorem C8_amended_witness :
    count2 '>' '>'
      (replace1 '\n' [' ']
        (replace4 '>' '>' '>' ' '
          ['>', '>'] ['a', '>', '>', 'b', '>', '>', 'c'])) = 2 ∧
    (_make_ts_from_srt ['a', '>', '>', 'b', '>', '>', 'c']).length = 3 :=
  ⟨by decide, C8_amended ['a', '>', '>', 'b', '>', '>', 'c'] (by decide)⟩

end Iatv
